import Mathlib

/-!
Verification development for the WebXn booking viewer's aggregation engine.

The Python source manipulates pandas DataFrames whose rows carry the seven
canonical columns `date, location, sublocation, time, type, booker, details`.
We embed a DataFrame as a `List` of records; every pandas operation used by
the aggregation engine (filtering, groupby with sorted keys, `unique`,
`nunique`, `sorted`, `", ".join`) is translated to an executable Lean
function over lists.  Machine-level concerns (CSV decoding, Streamlit UI,
Excel/PDF rendering) are outside the embedded core, exactly as the code's
aggregation functions never touch them.
-/

/-- One normalized booking row, the 7-column canonical schema produced by the
row-normalization block (`df_processed.columns = ['date','location',
'sublocation','time','type','booker','details']`).  All fields present. -/
structure Booking where
  date : String
  location : String
  sublocation : String
  time : String
  type : String
  booker : String
  details : String
deriving DecidableEq

/-- The per-(date,location) group key used by `aggregate_bookings`:
`groupby(['time', 'type', 'booker', 'details'])` (src/app.py:166). -/
structure GKey where
  time : String
  type : String
  booker : String
  details : String
deriving DecidableEq

def keyOf (b : Booking) : GKey :=
  { time := b.time, type := b.type, booker := b.booker, details := b.details }

/-- `expected_sub_count` dict of `aggregate_bookings` (src/app.py:151-158);
`.get(loc)` yields `None` for any other location. -/
def expected_sub_count : String → Option Nat
  | "Fives" => some 6
  | "3g-1" => some 2
  | "3g-2" => some 2
  | "Cameron Bank" => some 2
  | "East (winter)" => some 4
  | "South" => some 3
  | _ => none

/-- Python compares strings lexicographically by code point; this Boolean
comparator mirrors that order on the underlying character lists. -/
def charListLt : List Char → List Char → Bool
  | [], [] => false
  | [], _ :: _ => true
  | _ :: _, [] => false
  | a :: as, b :: bs =>
      if a.val.toNat < b.val.toNat then true
      else if b.val.toNat < a.val.toNat then false
      else charListLt as bs

/-- Strict `<` on strings, Python's code-point order. -/
def strLt (s t : String) : Bool := charListLt s.data t.data

/-- Non-strict `≤` on strings, Python's code-point order. -/
def strLe (s t : String) : Bool := strLt s t || s == t

/-- Ascending sort of strings, as Python's `sorted` on str (lexicographic by
code point). -/
def sortStrings (l : List String) : List String :=
  List.insertionSort (fun a b => strLe a b = true) l

/-- `", ".join(sorted(x.unique()))` — the joined-list branch of the
sublocation aggregation lambda (src/app.py:170).  `x.unique()` deduplicates
keeping first occurrences; `sorted` then orders them ascending. -/
def joined (x : List String) : String :=
  String.intercalate ", " (sortStrings x.dedup)

/-- The sublocation aggregation lambda of `aggregate_bookings`
(src/app.py:167-170), applied to the `sublocation` column `x` of one group:
`x.iloc[0] if x.nunique() == 1 else ("ALL" if (expected_sub_count.get(loc)
is not None and x.nunique() == expected_sub_count[loc]) else
", ".join(sorted(x.unique())))`.  Groups are nonempty, so `x.iloc[0]` is the
head; `headD ""` is its total rendering (the default is unreachable). -/
def collapseSub (loc : String) (x : List String) : String :=
  if x.dedup.length = 1 then x.headD ""
  else
    match expected_sub_count loc with
    | some n => if x.dedup.length = n then "ALL" else joined x
    | none => joined x

/-- Lexicographic order on the 4-field group key, the order in which pandas
`groupby` (default `sort=True`) emits the groups. -/
def gkeyLe (a b : GKey) : Bool :=
  strLt a.time b.time || (a.time == b.time &&
    (strLt a.type b.type || (a.type == b.type &&
      (strLt a.booker b.booker || (a.booker == b.booker &&
        strLe a.details b.details)))))

/-- The relation form of `gkeyLe`, as `List.insertionSort` expects. -/
def gkeyLE (a b : GKey) : Prop := gkeyLe a b = true

instance : DecidableRel gkeyLE := fun a b => by
  unfold gkeyLE; exact inferInstance

/-- `aggregate_bookings` (src/app.py:138-179).  For each date (ascending) and
each location within it (ascending), group the rows by (time, type, booker,
details) — pandas emits one output row per distinct key, keys sorted — and
collapse each group's sublocation column with the lambda above; the output
row then carries `[date, location, sublocation, time, type, booker,
details]`.  The empty-input branch returns the empty table with the same
canonical columns, here the empty list of `Booking`. -/
def aggregate_bookings (df : List Booking) : List Booking :=
  (sortStrings (df.map (·.date)).dedup).flatMap (fun d =>
    let df_date := df.filter (fun r => decide (r.date = d))
    (sortStrings (df_date.map (·.location)).dedup).flatMap (fun loc =>
      let sub_df := df_date.filter (fun r => decide (r.location = loc))
      (List.insertionSort gkeyLE (sub_df.map keyOf).dedup).map (fun k =>
        { date := d, location := loc,
          sublocation :=
            collapseSub loc
              ((sub_df.filter (fun r => decide (keyOf r = k))).map (·.sublocation)),
          time := k.time, type := k.type, booker := k.booker,
          details := k.details })))

/-- The sublocation column of the (d, loc, k) group of `df`: the rows of `df`
with date `d` and location `loc` whose (time,type,booker,details) key is `k`,
projected to `sublocation`, in row order — exactly the series `x` the
aggregation lambda receives. -/
def groupSublocs (df : List Booking) (d loc : String) (k : GKey) : List String :=
  (((df.filter (fun r => decide (r.date = d))).filter
      (fun r => decide (r.location = loc))).filter
      (fun r => decide (keyOf r = k))).map (·.sublocation)

/-! ### Helper lemmas about the joined-list branch -/

lemma comma_mem_intercalate_go (s : String) :
    ∀ (l : List String) (acc : String), ',' ∈ acc.data →
      ',' ∈ (String.intercalate.go acc s l).data := by
  intro l
  induction l with
  | nil => intro acc h; simpa [String.intercalate.go] using h
  | cons a as ih =>
      intro acc h
      simp only [String.intercalate.go]
      exact ih (acc ++ s ++ a) (by simp [String.data_append, h])

lemma comma_mem_intercalate {l : List String} (h : 2 ≤ l.length) :
    ',' ∈ (String.intercalate ", " l).data := by
  match l, h with
  | a :: b :: rest, _ =>
      simp only [String.intercalate, String.intercalate.go]
      exact comma_mem_intercalate_go ", " rest (a ++ ", " ++ b)
        (by simp [String.data_append])

lemma intercalate_ne_ALL {l : List String} (h : 2 ≤ l.length) :
    String.intercalate ", " l ≠ "ALL" := by
  intro he
  have := comma_mem_intercalate h
  rw [he] at this
  simp at this

lemma length_sortStrings (l : List String) : (sortStrings l).length = l.length :=
  (List.perm_insertionSort _ l).length_eq

lemma joined_ne_ALL {x : List String} (h : 2 ≤ x.dedup.length) :
    joined x ≠ "ALL" := by
  unfold joined
  exact intercalate_ne_ALL (by rw [length_sortStrings]; exact h)

lemma joined_of_dedup_singleton {x : List String} {v : String}
    (h : x.dedup = [v]) : joined x = v := by
  unfold joined sortStrings
  rw [h]
  simp [List.insertionSort, List.orderedInsert, String.intercalate,
    String.intercalate.go]

lemma dedup_length_one_all_eq {l : List String} (h : l.dedup.length = 1) :
    ∃ v, l.dedup = [v] ∧ ∀ a ∈ l, a = v := by
  obtain ⟨v, hv⟩ := List.length_eq_one.mp h
  refine ⟨v, hv, fun a ha => ?_⟩
  have : a ∈ l.dedup := List.mem_dedup.mpr ha
  rw [hv] at this
  simpa using this

/-! ### Shape of the Daily Aggregator's output rows -/

/-- Every output row of `aggregate_bookings` arises from a date `d`, a
location `loc` and a group key `k` realized by at least one input row with
that date and location; its fields are `d`, `loc`, the collapsed sublocation
of the (d,loc,k) group, and the key fields. -/
lemma aggregate_bookings_shape {df : List Booking} {r : Booking}
    (hr : r ∈ aggregate_bookings df) :
    ∃ d loc k,
      (∃ r₀, r₀ ∈ (df.filter (fun x => decide (x.date = d))).filter
          (fun x => decide (x.location = loc)) ∧ keyOf r₀ = k) ∧
      r = { date := d, location := loc,
            sublocation := collapseSub loc (groupSublocs df d loc k),
            time := k.time, type := k.type, booker := k.booker,
            details := k.details } := by
  simp only [aggregate_bookings, List.mem_flatMap, List.mem_map] at hr
  obtain ⟨d, _, loc, _, k, hk, hEq⟩ := hr
  have hk' : k ∈ ((df.filter (fun x => decide (x.date = d))).filter
      (fun x => decide (x.location = loc))).map keyOf := by
    have := (List.perm_insertionSort gkeyLE _).mem_iff.mp hk
    exact List.mem_dedup.mp this
  obtain ⟨r₀, hr₀, hkey⟩ := List.mem_map.mp hk'
  exact ⟨d, loc, k, ⟨r₀, hr₀, hkey⟩, hEq.symm⟩

lemma groupSublocs_ne_nil {df : List Booking} {d loc : String} {k : GKey}
    (h : ∃ r₀, r₀ ∈ (df.filter (fun x => decide (x.date = d))).filter
        (fun x => decide (x.location = loc)) ∧ keyOf r₀ = k) :
    groupSublocs df d loc k ≠ [] := by
  obtain ⟨r₀, hr₀, hkey⟩ := h
  have : r₀.sublocation ∈ groupSublocs df d loc k := by
    unfold groupSublocs
    exact List.mem_map_of_mem _ (List.mem_filter.mpr ⟨hr₀, by simp [hkey]⟩)
  exact List.ne_nil_of_mem this

lemma sortStrings_nodup {l : List String} (h : l.Nodup) : (sortStrings l).Nodup :=
  (List.perm_insertionSort _ l).nodup_iff.mpr h

lemma mem_sortStrings {a : String} {l : List String} :
    a ∈ sortStrings l ↔ a ∈ l :=
  (List.perm_insertionSort _ l).mem_iff

/-! ### Partition counting: the (date, location) filters split the input -/

lemma sum_map_ite_one_add {α : Type} [DecidableEq α] (a : α) (g : α → ℕ) :
    ∀ (l : List α), l.Nodup → a ∈ l →
      (l.map (fun v => if a = v then 1 + g v else g v)).sum = 1 + (l.map g).sum := by
  intro l
  induction l with
  | nil => intro _ h; cases h
  | cons x xs ih =>
      intro hn hm
      simp only [List.map_cons, List.sum_cons]
      rcases List.mem_cons.mp hm with rfl | hm'
      · rw [if_pos rfl]
        have hax : a ∉ xs := (List.nodup_cons.mp hn).1
        have hmap : xs.map (fun v => if a = v then 1 + g v else g v) = xs.map g :=
          List.map_congr_left fun v hv => by
            rw [if_neg]; intro h; exact hax (h ▸ hv)
        rw [hmap]; omega
      · have hax : a ≠ x := by
          rintro rfl; exact (List.nodup_cons.mp hn).1 hm'
        rw [if_neg hax, ih (List.nodup_cons.mp hn).2 hm']
        omega

/-- Summing, over a duplicate-free list `l` covering all values of `f` on
`df`, the sizes of the `f`-fibers of `df` recovers the size of `df`. -/
lemma sum_length_filter_partition {α β : Type} [DecidableEq α] (f : β → α) :
    ∀ (df : List β) (l : List α), l.Nodup → (∀ b ∈ df, f b ∈ l) →
      (l.map (fun v => (df.filter (fun b => decide (f b = v))).length)).sum
        = df.length := by
  intro df
  induction df with
  | nil => intro l _ _; simp
  | cons b tl ih =>
      intro l hn hc
      have hb : f b ∈ l := hc b (List.mem_cons_self _ _)
      have hstep : l.map (fun v => ((b :: tl).filter (fun x => decide (f x = v))).length)
          = l.map (fun v =>
              if f b = v then 1 + (tl.filter (fun x => decide (f x = v))).length
              else (tl.filter (fun x => decide (f x = v))).length) := by
        refine List.map_congr_left fun v _ => ?_
        by_cases h : f b = v
        · simp [List.filter_cons, h, Nat.add_comm]
        · simp [List.filter_cons, h]
      rw [hstep, sum_map_ite_one_add (f b) _ l hn hb,
        ih l hn (fun x hx => hc x (List.mem_cons_of_mem _ hx))]
      simp [Nat.add_comm]

/-! ### Global shape facts about the Daily Aggregator output -/

/-- The sublocation of an output row is fully determined by its (date,
location, key) group. -/
lemma aggregate_sublocation_det {df : List Booking} {r : Booking}
    (hr : r ∈ aggregate_bookings df) :
    r.sublocation = collapseSub r.location
      (groupSublocs df r.date r.location (keyOf r)) := by
  obtain ⟨d, loc, k, -, rfl⟩ := aggregate_bookings_shape hr
  rfl

/-- The output list of `aggregate_bookings` contains no duplicate row: rows
from different (date, location) iterations differ in those fields, and rows
within one iteration carry distinct group keys. -/
lemma aggregate_bookings_nodup (df : List Booking) :
    (aggregate_bookings df).Nodup := by
  simp only [aggregate_bookings]
  rw [List.nodup_flatMap]
  constructor
  · intro d _
    rw [List.nodup_flatMap]
    constructor
    · intro loc _
      refine List.Nodup.map ?_
        ((List.perm_insertionSort gkeyLE _).nodup_iff.mpr (List.nodup_dedup _))
      intro k1 k2 h
      exact congrArg keyOf h
    · refine List.Pairwise.imp ?_
        (sortStrings_nodup (List.nodup_dedup _))
      intro a b hab x hx1 hx2
      obtain ⟨k1, _, rfl⟩ := List.mem_map.mp hx1
      obtain ⟨k2, _, h2⟩ := List.mem_map.mp hx2
      exact hab (congrArg Booking.location h2.symm)
  · refine List.Pairwise.imp ?_
      (sortStrings_nodup (List.nodup_dedup _))
    intro a b hab x hx1 hx2
    rw [List.mem_flatMap] at hx1 hx2
    obtain ⟨la, _, hx1⟩ := hx1
    obtain ⟨lb, _, hx2⟩ := hx2
    obtain ⟨k1, _, rfl⟩ := List.mem_map.mp hx1
    obtain ⟨k2, _, h2⟩ := List.mem_map.mp hx2
    exact hab (congrArg Booking.date h2.symm)

/-! ### Claim C3 -/

/-- C3: the Daily Aggregator never emits more rows than it receives, and
within each (date, location) partition of its output every (time, type,
booker, details) tuple occurs exactly once. -/
theorem c3_daily_count_and_uniqueness (df : List Booking) (d₀ loc₀ : String) :
    (aggregate_bookings df).length ≤ df.length ∧
    (((aggregate_bookings df).filter
        (fun r => decide (r.date = d₀ ∧ r.location = loc₀))).map keyOf).Nodup := by
  constructor
  · simp only [aggregate_bookings]
    rw [List.length_flatMap]
    have hdn : (sortStrings (df.map (·.date)).dedup).Nodup :=
      sortStrings_nodup (List.nodup_dedup _)
    have hdc : ∀ b ∈ df, b.date ∈ sortStrings (df.map (·.date)).dedup := by
      intro b hb
      rw [mem_sortStrings, List.mem_dedup]
      exact List.mem_map_of_mem _ hb
    refine le_trans (List.sum_le_sum ?_)
      (le_of_eq (sum_length_filter_partition (fun b => b.date) df _ hdn hdc))
    intro d _
    simp only [Function.comp]
    rw [List.length_flatMap]
    have hln : (sortStrings ((df.filter (fun r => decide (r.date = d))).map
        (·.location)).dedup).Nodup :=
      sortStrings_nodup (List.nodup_dedup _)
    have hlc : ∀ b ∈ df.filter (fun r => decide (r.date = d)),
        b.location ∈ sortStrings ((df.filter (fun r => decide (r.date = d))).map
          (·.location)).dedup := by
      intro b hb
      rw [mem_sortStrings, List.mem_dedup]
      exact List.mem_map_of_mem _ hb
    refine le_trans (List.sum_le_sum ?_)
      (le_of_eq (sum_length_filter_partition (fun b => b.location) _ _ hln hlc))
    intro loc _
    simp only [Function.comp, List.length_map]
    rw [(List.perm_insertionSort gkeyLE _).length_eq]
    calc ((((df.filter (fun r => decide (r.date = d))).filter
          (fun r => decide (r.location = loc))).map keyOf).dedup).length
        ≤ (((df.filter (fun r => decide (r.date = d))).filter
          (fun r => decide (r.location = loc))).map keyOf).length :=
          (List.dedup_sublist _).length_le
      _ = _ := List.length_map _ _
  · have hfil : ((aggregate_bookings df).filter
        (fun r => decide (r.date = d₀ ∧ r.location = loc₀))).Nodup :=
      (List.filter_sublist _).nodup (aggregate_bookings_nodup df)
    refine List.Nodup.map_on ?_ hfil
    intro x hx y hy hkey
    have hx' := List.mem_filter.mp hx
    have hy' := List.mem_filter.mp hy
    have hxp : x.date = d₀ ∧ x.location = loc₀ := by
      have := hx'.2; simpa using this
    have hyp : y.date = d₀ ∧ y.location = loc₀ := by
      have := hy'.2; simpa using this
    have hdate : x.date = y.date := by rw [hxp.1, hyp.1]
    have hloc : x.location = y.location := by rw [hxp.2, hyp.2]
    have htime : x.time = y.time := congrArg GKey.time hkey
    have htype : x.type = y.type := congrArg GKey.type hkey
    have hbooker : x.booker = y.booker := congrArg GKey.booker hkey
    have hdetails : x.details = y.details := congrArg GKey.details hkey
    have hsub : x.sublocation = y.sublocation := by
      rw [aggregate_sublocation_det hx'.1, aggregate_sublocation_det hy'.1,
        hdate, hloc, hkey]
    cases x; cases y
    simp only at hdate hloc htime htype hbooker hdetails hsub
    simp [hdate, hloc, htime, htype, hbooker, hdetails, hsub]

/-! ### Claim C1 -/

/-- C1 (Daily Aggregator sublocation collapse rule): for every output row of
`aggregate_bookings`, writing `g` for the sublocation column of its
(date, location, time, type, booker, details) group, the output sublocation
is the single sublocation value when `g` has one distinct value; exactly
`"ALL"` when the distinct count exceeds 1 and equals the expected sublocation
count configured for the location; and otherwise (in particular for every
location absent from `expected_sub_count`) the comma-joined, lexicographically
sorted, deduplicated list of the group's sublocations, which is never
`"ALL"`. -/
theorem c1_daily_sublocation_collapse (df : List Booking) (r : Booking)
    (hr : r ∈ aggregate_bookings df)
    (g : List String) (hg : g = groupSublocs df r.date r.location (keyOf r)) :
    (g.dedup.length = 1 → ∀ s ∈ g, r.sublocation = s) ∧
    (1 < g.dedup.length → expected_sub_count r.location = some g.dedup.length →
      r.sublocation = "ALL") ∧
    (1 < g.dedup.length → expected_sub_count r.location ≠ some g.dedup.length →
      r.sublocation = joined g ∧ r.sublocation ≠ "ALL") := by
  obtain ⟨d, loc, k, hex, rfl⟩ := aggregate_bookings_shape hr
  change g = groupSublocs df d loc k at hg
  have hne : g ≠ [] := hg ▸ groupSublocs_ne_nil hex
  subst hg
  refine ⟨?_, ?_, ?_⟩
  · intro h1 s hs
    obtain ⟨v, _, hall⟩ := dedup_length_one_all_eq h1
    have hhead : (groupSublocs df d loc k).headD "" ∈ groupSublocs df d loc k := by
      obtain ⟨a, t, he⟩ := List.exists_cons_of_ne_nil hne
      rw [he]; simp
    show collapseSub loc (groupSublocs df d loc k) = s
    unfold collapseSub
    rw [if_pos h1]
    rw [hall _ hhead, hall _ hs]
  · intro hgt hexp
    show collapseSub loc (groupSublocs df d loc k) = "ALL"
    unfold collapseSub
    rw [if_neg (by omega)]
    rw [hexp]
    simp
  · intro hgt hexp
    have hne1 : ¬ (groupSublocs df d loc k).dedup.length = 1 := by omega
    have h2 : 2 ≤ (groupSublocs df d loc k).dedup.length := by omega
    constructor
    · show collapseSub loc (groupSublocs df d loc k) = joined _
      unfold collapseSub
      rw [if_neg hne1]
      cases hcase : expected_sub_count loc with
      | none => rfl
      | some n =>
          show (if (groupSublocs df d loc k).dedup.length = n then "ALL"
              else joined (groupSublocs df d loc k)) = joined _
          rw [if_neg ?_]
          intro hn
          exact hexp (by rw [hcase, hn])
    · show collapseSub loc (groupSublocs df d loc k) ≠ "ALL"
      unfold collapseSub
      rw [if_neg hne1]
      cases hcase : expected_sub_count loc with
      | none => exact joined_ne_ALL h2
      | some n =>
          show (if (groupSublocs df d loc k).dedup.length = n then "ALL"
              else joined (groupSublocs df d loc k)) ≠ "ALL"
          rw [if_neg ?_]
          · exact joined_ne_ALL h2
          · intro hn
            exact hexp (by rw [hcase, hn])

/-- Witness for C1: a concrete two-row "3g-1" group (expected count 2) whose
output row collapses to `"ALL"`. -/
theorem c1_daily_sublocation_collapse_witness :
    ({ date := "01/05", location := "3g-1", sublocation := "ALL",
       time := "10:00 to 11:00", type := "T", booker := "B", details := "D" } :
        Booking) ∈
      aggregate_bookings
        [ { date := "01/05", location := "3g-1", sublocation := "A",
            time := "10:00 to 11:00", type := "T", booker := "B", details := "D" },
          { date := "01/05", location := "3g-1", sublocation := "B",
            time := "10:00 to 11:00", type := "T", booker := "B", details := "D" } ] ∧
    (["A", "B"].dedup.length = 1 → ∀ s ∈ ["A", "B"],
        ("ALL" : String) = s) ∧
    (1 < ["A", "B"].dedup.length →
      expected_sub_count "3g-1" = some ["A", "B"].dedup.length →
      ("ALL" : String) = "ALL") ∧
    (1 < ["A", "B"].dedup.length →
      expected_sub_count "3g-1" ≠ some ["A", "B"].dedup.length →
      ("ALL" : String) = joined ["A", "B"] ∧ ("ALL" : String) ≠ "ALL") := by
  refine ⟨by decide, ?_⟩
  exact c1_daily_sublocation_collapse
    [ { date := "01/05", location := "3g-1", sublocation := "A",
        time := "10:00 to 11:00", type := "T", booker := "B", details := "D" },
      { date := "01/05", location := "3g-1", sublocation := "B",
        time := "10:00 to 11:00", type := "T", booker := "B", details := "D" } ]
    { date := "01/05", location := "3g-1", sublocation := "ALL",
      time := "10:00 to 11:00", type := "T", booker := "B", details := "D" }
    (by decide) ["A", "B"] (by decide)

/-! ### Claim C8 -/

/-- C8: empty (or filtered-to-empty) input yields the empty table.  In this
embedding the output type `List Booking` fixes the 7 canonical columns, and
`aggregate_bookings` is a total function, so no exception can arise; the
code's empty branch (src/app.py:178-179) likewise returns an empty frame
with the canonical column list. -/
theorem c8_empty_input_empty_output :
    aggregate_bookings ([] : List Booking) = [] ∧
    ∀ (df : List Booking) (p : Booking → Bool), df.filter p = [] →
      aggregate_bookings (df.filter p) = [] := by
  refine ⟨rfl, ?_⟩
  intro df p h
  rw [h]
  rfl

/-- Witness for C8: a concrete one-row table filtered to empty. -/
theorem c8_empty_input_empty_output_witness :
    ([({ date := "01/05", location := "South", sublocation := "S 1",
         time := "10:00 to 11:00", type := "T", booker := "B",
         details := "D" } : Booking)].filter (fun _ => false) = []) ∧
    aggregate_bookings
      ([({ date := "01/05", location := "South", sublocation := "S 1",
           time := "10:00 to 11:00", type := "T", booker := "B",
           details := "D" } : Booking)].filter (fun _ => false)) = [] := by
  refine ⟨by decide, ?_⟩
  exact c8_empty_input_empty_output.2 _ _ (by decide)

/-! ### The Grass Condenser (`agggrass`, src/unnamed/part_000:158-186) -/

/-- `thresholds` dict of `agggrass` (src/unnamed/part_000:165). -/
def grass_thresholds : String → Option Nat
  | "3g-1" => some 2
  | "3g-2" => some 2
  | "Cameron Bank" => some 2
  | "South" => some 3
  | _ => none

/-- The group key of the condenser: `groupby(["date", "time", "type",
"booker", "details"])` — every column except sublocation and the (constant)
location (src/unnamed/part_000:177). -/
structure GGKey where
  date : String
  time : String
  type : String
  booker : String
  details : String
deriving DecidableEq

def ggKeyOf (b : Booking) : GGKey :=
  { date := b.date, time := b.time, type := b.type, booker := b.booker,
    details := b.details }

/-- Lexicographic order on the condenser's 5-field group key (pandas
`groupby` default `sort=True`). -/
def ggkeyLe (a b : GGKey) : Bool :=
  strLt a.date b.date || (a.date == b.date &&
    (strLt a.time b.time || (a.time == b.time &&
      (strLt a.type b.type || (a.type == b.type &&
        (strLt a.booker b.booker || (a.booker == b.booker &&
          strLe a.details b.details)))))))

/-- The relation form of `ggkeyLe`, as `List.insertionSort` expects. -/
def ggkeyLE (a b : GGKey) : Prop := ggkeyLe a b = true

instance : DecidableRel ggkeyLE := fun a b => by
  unfold ggkeyLE; exact inferInstance

/-- `agggrass` (src/unnamed/part_000:158-186).  `df.groupby("location",
sort=False)` visits the distinct locations in first-appearance order; for a
location in the threshold table the rows are regrouped by every other column
and the sublocation series `x` of each group is condensed to `"ALL"` exactly
when the raw row count `len(x)` equals the threshold, else to
`", ".join(sorted(x.unique()))`; other locations pass through unchanged.
The preceding `fillna` is the identity on this all-`String` row type (see
`agggrassN` for the null-carrying version). -/
def agggrass (df : List Booking) : List Booking :=
  ((df.map (·.location)).dedup).flatMap (fun loc =>
    let group := df.filter (fun r => decide (r.location = loc))
    match grass_thresholds loc with
    | some thr =>
        (List.insertionSort ggkeyLE (group.map ggKeyOf).dedup).map (fun k =>
          let x := (group.filter (fun r => decide (ggKeyOf r = k))).map
            (·.sublocation)
          { date := k.date, location := loc,
            sublocation := if x.length = thr then "ALL" else joined x,
            time := k.time, type := k.type, booker := k.booker,
            details := k.details })
    | none => group)

/-- The sublocation series `x` handed to the condenser's lambda for the
(loc, k) group: the rows of `df` at location `loc` whose other columns form
the key `k`, projected to sublocation in row order. -/
def grassGroupSublocs (df : List Booking) (loc : String) (k : GGKey) :
    List String :=
  ((df.filter (fun r => decide (r.location = loc))).filter
    (fun r => decide (ggKeyOf r = k))).map (·.sublocation)

lemma agggrass_shape {df : List Booking} {out : Booking} {thr : ℕ}
    (hout : out ∈ agggrass df)
    (hthr : grass_thresholds out.location = some thr) :
    (∃ r₀ ∈ df.filter (fun r => decide (r.location = out.location)),
        ggKeyOf r₀ = ggKeyOf out) ∧
    out.sublocation =
      (if (grassGroupSublocs df out.location (ggKeyOf out)).length = thr
       then "ALL"
       else joined (grassGroupSublocs df out.location (ggKeyOf out))) := by
  simp only [agggrass, List.mem_flatMap] at hout
  obtain ⟨loc, _, hmem⟩ := hout
  split at hmem
  case h_2 heq =>
    have hloc : out.location = loc := by
      have := (List.mem_filter.mp hmem).2
      simpa using this
    rw [hloc, heq] at hthr
    cases hthr
  case h_1 thr' heq =>
    obtain ⟨k, hk, rfl⟩ := List.mem_map.mp hmem
    have hthr' : thr' = thr := by
      have : grass_thresholds loc = some thr := hthr
      rw [heq] at this
      exact (Option.some.inj this)
    subst hthr'
    constructor
    · have hk' : k ∈ (df.filter (fun r => decide (r.location = loc))).map
          ggKeyOf := by
        have := (List.perm_insertionSort ggkeyLE _).mem_iff.mp hk
        exact List.mem_dedup.mp this
      obtain ⟨r₀, hr₀, hkey⟩ := List.mem_map.mp hk'
      exact ⟨r₀, hr₀, hkey⟩
    · rfl

lemma agggrass_group_ne_nil {df : List Booking} {out : Booking}
    (h : ∃ r₀ ∈ df.filter (fun r => decide (r.location = out.location)),
        ggKeyOf r₀ = ggKeyOf out) :
    grassGroupSublocs df out.location (ggKeyOf out) ≠ [] := by
  obtain ⟨r₀, hr₀, hkey⟩ := h
  have : r₀.sublocation ∈ grassGroupSublocs df out.location (ggKeyOf out) := by
    unfold grassGroupSublocs
    exact List.mem_map_of_mem _ (List.mem_filter.mpr ⟨hr₀, by simp [hkey]⟩)
  exact List.ne_nil_of_mem this

/-! ### Claim C2 -/

/-- C2 (Grass Condenser threshold rule): for every output row of `agggrass`
at a location with a configured threshold, and whose group's genuine
sublocation names do not include the literal `"ALL"`, the output sublocation
is `"ALL"` iff the raw row count of the group equals the threshold; in
particular, at "South" (threshold 3) a group of exactly 3 rows differing only
in sublocation collapses to `"ALL"`, while groups of 2 or of 4 such rows do
not. -/
theorem c2_grass_condenser_threshold (df : List Booking) (out : Booking)
    (thr : ℕ) (h1 : out ∈ agggrass df)
    (h2 : grass_thresholds out.location = some thr)
    (h3 : "ALL" ∉ grassGroupSublocs df out.location (ggKeyOf out)) :
    (out.sublocation = "ALL" ↔
      (grassGroupSublocs df out.location (ggKeyOf out)).length = thr) ∧
    (agggrass
      [ { date := "01/05", location := "South", sublocation := "S 1",
          time := "10:00 to 11:00", type := "T", booker := "B", details := "D" },
        { date := "01/05", location := "South", sublocation := "S 2",
          time := "10:00 to 11:00", type := "T", booker := "B", details := "D" },
        { date := "01/05", location := "South", sublocation := "S 3",
          time := "10:00 to 11:00", type := "T", booker := "B", details := "D" } ]).map
      (·.sublocation) = ["ALL"] ∧
    (agggrass
      [ { date := "01/05", location := "South", sublocation := "S 1",
          time := "10:00 to 11:00", type := "T", booker := "B", details := "D" },
        { date := "01/05", location := "South", sublocation := "S 2",
          time := "10:00 to 11:00", type := "T", booker := "B", details := "D" } ]).map
      (·.sublocation) = ["S 1, S 2"] ∧
    "ALL" ∉ (agggrass
      [ { date := "01/05", location := "South", sublocation := "S 1",
          time := "10:00 to 11:00", type := "T", booker := "B", details := "D" },
        { date := "01/05", location := "South", sublocation := "S 2",
          time := "10:00 to 11:00", type := "T", booker := "B", details := "D" },
        { date := "01/05", location := "South", sublocation := "S 3",
          time := "10:00 to 11:00", type := "T", booker := "B", details := "D" },
        { date := "01/05", location := "South", sublocation := "S 4",
          time := "10:00 to 11:00", type := "T", booker := "B", details := "D" } ]).map
      (·.sublocation) := by
  obtain ⟨hex, hsub⟩ := agggrass_shape h1 h2
  refine ⟨?_, by decide, by decide, by decide⟩
  rw [hsub]
  by_cases hlen : (grassGroupSublocs df out.location (ggKeyOf out)).length = thr
  · rw [if_pos hlen]
    exact ⟨fun _ => hlen, fun _ => rfl⟩
  · rw [if_neg hlen]
    constructor
    · intro hAll
      exfalso
      have hne : grassGroupSublocs df out.location (ggKeyOf out) ≠ [] :=
        agggrass_group_ne_nil hex
      rcases hdl : (grassGroupSublocs df out.location (ggKeyOf out)).dedup.length
        with _ | n
      · exact hne ((List.dedup_eq_nil _).mp (List.length_eq_zero.mp hdl))
      · rcases n with _ | m
        · obtain ⟨v, hv, hall⟩ := dedup_length_one_all_eq hdl
          have : joined (grassGroupSublocs df out.location (ggKeyOf out)) = v :=
            joined_of_dedup_singleton hv
          rw [this] at hAll
          subst hAll
          obtain ⟨a, t, he⟩ := List.exists_cons_of_ne_nil hne
          have ha : a ∈ grassGroupSublocs df out.location (ggKeyOf out) := by
            rw [he]; simp
          exact h3 ((hall a ha) ▸ ha)
        · exact joined_ne_ALL (by omega) hAll
    · intro h; exact absurd h hlen

/-- Witness for C2: the concrete 3-row "South" group; the general iff is
instantiated at its `"ALL"` output row. -/
theorem c2_grass_condenser_threshold_witness :
    (({ date := "01/05", location := "South", sublocation := "ALL",
        time := "10:00 to 11:00", type := "T", booker := "B", details := "D" } :
        Booking) ∈ agggrass
      [ { date := "01/05", location := "South", sublocation := "S 1",
          time := "10:00 to 11:00", type := "T", booker := "B", details := "D" },
        { date := "01/05", location := "South", sublocation := "S 2",
          time := "10:00 to 11:00", type := "T", booker := "B", details := "D" },
        { date := "01/05", location := "South", sublocation := "S 3",
          time := "10:00 to 11:00", type := "T", booker := "B", details := "D" } ]) ∧
    (("ALL" : String) = "ALL" ↔
      (grassGroupSublocs
        [ { date := "01/05", location := "South", sublocation := "S 1",
            time := "10:00 to 11:00", type := "T", booker := "B", details := "D" },
          { date := "01/05", location := "South", sublocation := "S 2",
            time := "10:00 to 11:00", type := "T", booker := "B", details := "D" },
          { date := "01/05", location := "South", sublocation := "S 3",
            time := "10:00 to 11:00", type := "T", booker := "B", details := "D" } ]
        "South"
        { date := "01/05", time := "10:00 to 11:00", type := "T", booker := "B",
          details := "D" }).length = 3) := by
  refine ⟨by decide, ?_⟩
  exact (c2_grass_condenser_threshold _
    { date := "01/05", location := "South", sublocation := "ALL",
      time := "10:00 to 11:00", type := "T", booker := "B", details := "D" }
    3 (by decide) (by decide) (by decide)).1

/-! ### Substring containment (Python's `in` operator on strings) -/

/-- `startsWithList pat s`: `s` begins with `pat`. -/
def startsWithList : List Char → List Char → Bool
  | [], _ => true
  | _ :: _, [] => false
  | p :: ps, c :: cs => p == c && startsWithList ps cs

/-- `hasSubList pat s`: `pat` occurs contiguously in `s`. -/
def hasSubList (pat : List Char) : List Char → Bool
  | [] => startsWithList pat []
  | c :: rest => startsWithList pat (c :: rest) || hasSubList pat rest

/-- Python's `pat in s` on strings: contiguous substring containment. -/
def strContains (s pat : String) : Bool := hasSubList pat.data s.data

/-! ### Highlight classification (`highlight_rows`, src/unnamed/part_000:149-156) -/

/-- `highlight_rows` decides one style for the whole row from its `type`
field alone: `'background-color: #80D4ED'` (blue) when the type is exactly
`"Grounds-15"`, else `'background-color: lightyellow'` when `"(game)"` is a
substring of the type, else the empty style.  The source replicates the
chosen style string across the row's cells; the classification itself is
this single string. -/
def highlight_rows (type : String) : String :=
  if type = "Grounds-15" then "background-color: #80D4ED"
  else if strContains type "(game)" then "background-color: lightyellow"
  else ""

/-! ### Claim C5 -/

/-- C5 counterexample: the claim asserts that a row with type exactly
`"Grounds-15 (game)"` classifies as blue.  On the code the exact-match
comparison with `"Grounds-15"` fails for that string, so the substring
branch fires and the row classifies as yellow, not blue. -/
theorem c5_highlight_counterexample :
    highlight_rows "Grounds-15 (game)" = "background-color: lightyellow" ∧
    highlight_rows "Grounds-15 (game)" ≠ "background-color: #80D4ED" := by
  constructor
  · rfl
  · decide

/-- C5 amended: the classification is a pure function of the `type` field —
blue exactly when the type equals `"Grounds-15"`, else yellow when
`"(game)"` is a substring, else none — and the type `"Grounds-15 (game)"`
classifies as yellow, since the exact-match condition requires full string
equality and fails for it while the substring condition applies. -/
theorem c5_highlight_classification (t : String) :
    (t = "Grounds-15" → highlight_rows t = "background-color: #80D4ED") ∧
    (t ≠ "Grounds-15" → strContains t "(game)" = true →
      highlight_rows t = "background-color: lightyellow") ∧
    (t ≠ "Grounds-15" → strContains t "(game)" = false →
      highlight_rows t = "") ∧
    highlight_rows "Grounds-15 (game)" = "background-color: lightyellow" := by
  refine ⟨?_, ?_, ?_, rfl⟩
  · intro h
    unfold highlight_rows
    rw [if_pos h]
  · intro h1 h2
    unfold highlight_rows
    rw [if_neg h1, if_pos h2]
  · intro h1 h2
    unfold highlight_rows
    rw [if_neg h1, if_neg (by rw [h2]; exact Bool.false_ne_true)]

/-- Witness for the amended C5, instantiated at `"Grounds-15 (game)"`. -/
theorem c5_highlight_classification_witness :
    (("Grounds-15 (game)" : String) ≠ "Grounds-15" ∧
      strContains "Grounds-15 (game)" "(game)" = true) ∧
    highlight_rows "Grounds-15 (game)" = "background-color: lightyellow" :=
  ⟨⟨by decide, by decide⟩,
    (c5_highlight_classification "Grounds-15 (game)").2.1 (by decide) (by decide)⟩

/-! ### Python-style splitting (pandas `str.split(sep)` semantics) -/

/-- Fuel-indexed splitter on character lists: at each position, a match of
the (nonempty) separator closes the current segment and skips it; the fuel
(initially the string length) only bounds the structural recursion and is
never exhausted on real inputs. -/
def splitOnCharList (sep : List Char) : Nat → List Char → List (List Char)
  | _, [] => [[]]
  | 0, s => [s]
  | fuel + 1, c :: rest =>
      if startsWithList sep (c :: rest) && !sep.isEmpty then
        [] :: splitOnCharList sep fuel (rest.drop (sep.length - 1))
      else
        match splitOnCharList sep fuel rest with
        | [] => [[c]]
        | h :: t => (c :: h) :: t

/-- Python's `s.split(sep)` for nonempty `sep`: the list of segments of `s`
between non-overlapping left-to-right occurrences of `sep`; a string not
containing `sep` yields the one-element list `[s]`. -/
def pySplit (s sep : String) : List String :=
  (splitOnCharList sep.data s.data.length s.data).map String.mk

example : pySplit "01/05/2024 - South" " - " = ["01/05/2024", "South"] := by decide
example : pySplit "no separator here" " - " = ["no separator here"] := by decide
example : pySplit "a - b - c" " - " = ["a", "b", "c"] := by decide
example : pySplit "10:00 to 11:00" " to " = ["10:00", "11:00"] := by decide

/-! ### Weekly Grid Builder (Grass tab AutoGS block, src/unnamed/part_000:1557-1620) -/

/-- A grass-subset booking row after `pd.to_datetime(df_grass["date"],
dayfirst=True)`: the date is a day ordinal (days since 1970-01-01, which was
a Thursday); the remaining fields are the canonical strings. -/
structure GBooking where
  date : Nat
  location : String
  sublocation : String
  time : String
  type : String
  booker : String
  details : String
deriving DecidableEq

/-- `earliest.weekday()` with Python's convention Monday = 0 (day 0 of the
ordinal scale, 1970-01-01, was a Thursday, weekday 3). -/
def weekday (d : Nat) : Nat := (d + 3) % 7

/-- The failure surfaced by the AutoGS block when the earliest grass date is
not a Monday (`st.error(f"Earliest date ... is not a Monday.")`,
src/unnamed/part_000:1561-1562): the message carries the offending date and
the grid is not built. -/
structure NonMondayStartError where
  date : Nat
deriving DecidableEq

/-- `start.replace(':','')` — drop every colon. -/
def stripColons (s : String) : String :=
  String.mk (s.data.filter (fun c => !(c == ':')))

/-- Minimum of a list of strings in Python's code-point order. -/
def minString? : List String → Option String
  | [] => none
  | a :: rest =>
      match minString? rest with
      | none => some a
      | some m => some (if strLe a m then a else m)

/-- Per-day earliest start time of an activity location: the 3G rows of that
date, their `time` split on `" to "` taking the first token, minimized; the
lookup `activity.get(name, {}).get(dt)` yields `None` when the location has
no row on that date (src/unnamed/part_000:1566-1572). -/
def activityStart (df : List GBooking) (loc : String) (dt : Nat) :
    Option String :=
  minString?
    (((df.filter (fun r => decide (r.location = loc))).filter
      (fun r => decide (r.date = dt))).map
      (fun r => (pySplit r.time " to ").headD ""))

/-- `pitch_mappings` (src/unnamed/part_000:1573-1584). -/
def pitch_mappings : List (String × String × String) :=
  [ ("East (winter)", "Pitch 1", "East 1"),
    ("East (winter)", "Pitch 2", "East 2"),
    ("East (winter)", "Pitch 3", "East 3"),
    ("East (winter)", "Training", "East Training"),
    ("East (summer)", "Pitch 1", "Cricket"),
    ("South", "S 1", "South 1"),
    ("South", "S 2", "South 2"),
    ("South", "S 3", "South 3"),
    ("Cameron Bank", "C B 1", "CB1"),
    ("Cameron Bank", "C B 2", "CB2") ]

/-- `pitch_names = [m[2] for m in pitch_mappings] + ["3g-1", "3g-2"]`. -/
def pitch_names : List String :=
  pitch_mappings.map (fun m => m.2.2) ++ ["3g-1", "3g-2"]

/-- One grid cell (src/unnamed/part_000:1602-1620).  For the activity
locations: `"Activity starts {t}"` when a start time exists and is nonempty
(Python's truthiness test), else empty.  For a mapped pitch: the
newline-joined `"{details}\n{start}{end}"` lines (colon-stripped, dash-joined
time range) of the bookings matching (location, sublocation, date), in row
order.  The source's `next(...)` over `pitch_mappings` and its two-element
time unpacking are total here via `find?` and a pattern match; their
fallbacks are unreachable for the names in `pitch_names` and well-formed
`"HH:MM to HH:MM"` times. -/
def gridCell (df : List GBooking) (name : String) (dt : Nat) : String :=
  if name = "3g-1" ∨ name = "3g-2" then
    match activityStart df name dt with
    | some t => if t = "" then "" else "Activity starts " ++ t
    | none => ""
  else
    match pitch_mappings.find? (fun m => decide (m.2.2 = name)) with
    | some (loc, subloc, _) =>
        String.intercalate "\n"
          ((df.filter (fun r =>
            decide (r.location = loc ∧ r.sublocation = subloc ∧
              r.date = dt))).map (fun r =>
            match pySplit r.time " to " with
            | [s, e] => r.details ++ "\n" ++ stripColons s ++ "-" ++ stripColons e
            | _ => r.details ++ "\n"))
    | none => ""

/-- The AutoGS weekly-grid block (src/unnamed/part_000:1557-1620), run only
when the grass subset is nonempty (`none` models the skipped block on an
empty subset).  It takes the minimum date; if that date is not a Monday it
surfaces the error carrying the date and builds nothing; otherwise it builds
the 12-pitch × 7-day grid of cells for the week starting at that Monday. -/
def buildWeekGrid (df : List GBooking) :
    Option (Except NonMondayStartError (List (List String))) :=
  match (df.map (·.date)).min? with
  | none => none
  | some earliest =>
      if weekday earliest ≠ 0 then some (Except.error ⟨earliest⟩)
      else some (Except.ok (pitch_names.map (fun name =>
        ((List.range 7).map (fun i => earliest + i)).map (fun dt =>
          gridCell df name dt))))

/-! ### Claim C4 -/

/-- C4: whenever the minimum date of the grass subset is not a Monday, the
weekly grid build fails with the non-Monday error carrying the offending
date and produces no grid.  The aggregation paths are unaffected by this
failure: `aggregate_bookings` and `agggrass` are defined independently of
`buildWeekGrid` and never inspect its result. -/
theorem c4_non_monday_start_rejected (df : List GBooking) (m : Nat)
    (h1 : (df.map (·.date)).min? = some m) (h2 : weekday m ≠ 0) :
    buildWeekGrid df = some (Except.error ⟨m⟩) := by
  simp only [buildWeekGrid, h1]
  rw [if_pos h2]

/-- Witness for C4: a one-row batch whose date ordinal 5 (1970-01-06) is a
Tuesday (weekday 1). -/
theorem c4_non_monday_start_rejected_witness :
    (([({ date := 5, location := "South", sublocation := "S 1",
          time := "10:00 to 11:00", type := "T", booker := "B",
          details := "D" } : GBooking)].map (·.date)).min? = some 5) ∧
    weekday 5 ≠ 0 ∧
    buildWeekGrid
      [({ date := 5, location := "South", sublocation := "S 1",
          time := "10:00 to 11:00", type := "T", booker := "B",
          details := "D" } : GBooking)] =
      some (Except.error ⟨5⟩) := by
  refine ⟨by decide, by decide, ?_⟩
  exact c4_non_monday_start_rejected _ 5 (by decide) (by decide)

/-! ### Row Normalizer (row-normalization block, src/app.py:193-205) -/

/-- A row of `df_processed`.  The `location` is optional: pandas
`str.split(' - ', expand=True)` pads a row with fewer parts than the widest
row with `None`, so a separator-less row can carry a null location. -/
structure NormRow where
  date : String
  location : Option String
  sublocation : String
  time : String
  type : String
  booker : String
  details : String
deriving DecidableEq

/-- The `ValueError` raised by `split_col.columns = ['date', 'location']`
when the expanded split does not have exactly two columns; it carries the
number of columns the expansion produced. -/
inductive NormError where
  | columnMismatch (found : Nat)
deriving DecidableEq

deriving instance DecidableEq for Except

/-- The split parts of one raw row's combined date-location field: column 24
(1-indexed; the head of the `iloc[:, 23:30]` slice) split on `" - "`. -/
def rowParts (r : List String) : List String :=
  pySplit (((r.drop 23).take 7).headD "") " - "

/-- The number of columns of the expanded split frame: the maximum part
count over all rows (pandas `expand=True` pads shorter rows with `None`). -/
def maxParts (df : List (List String)) : Nat :=
  (df.map (fun r => (rowParts r).length)).foldr max 0

/-- One normalized row: `date` and `location` from the split (the location
missing when the row had a single part), and sublocation, time, type,
booker, details from slice positions 3, 2, 4, 5, 6
(`df_extract.iloc[:, [3, 2, 4, 5, 6]]`, src/app.py:203-205).  The `getD ""`
defaults are unreachable for the spec's ≥ 30-column raw rows. -/
def normOne (r : List String) : NormRow :=
  let e := (r.drop 23).take 7
  let p := rowParts r
  { date := p.headD "", location := p[1]?, sublocation := e.getD 3 "",
    time := e.getD 2 "", type := e.getD 4 "", booker := e.getD 5 "",
    details := e.getD 6 "" }

/-- The whole row-normalization block (src/app.py:196-205): slice columns
24-30, split the combined field on `" - "`, name the two split columns and
reassemble the canonical schema.  Naming the split columns raises when the
expansion is not exactly two columns wide; that failure aborts the whole
batch (caught only by the app-level handler), so no row is normalized. -/
def normalize_batch (df : List (List String)) :
    Except NormError (List NormRow) :=
  if maxParts df = 2 then Except.ok (df.map normOne)
  else Except.error (NormError.columnMismatch (maxParts df))

lemma le_foldr_max {l : List Nat} {a : Nat} (h : a ∈ l) :
    a ≤ l.foldr max 0 := by
  induction l with
  | nil => cases h
  | cons x xs ih =>
      rcases List.mem_cons.mp h with rfl | hm
      · exact le_max_left _ _
      · exact le_trans (ih hm) (le_max_right _ _)

lemma foldr_max_of_all_one {l : List Nat} (hne : l ≠ [])
    (h : ∀ x ∈ l, x = 1) : l.foldr max 0 = 1 := by
  induction l with
  | nil => exact absurd rfl hne
  | cons x xs ih =>
      have hx : x = 1 := h x (List.mem_cons_self _ _)
      cases xs with
      | nil => simp [hx]
      | cons y ys =>
          have : (y :: ys).foldr max 0 = 1 :=
            ih (by simp) (fun z hz => h z (List.mem_cons_of_mem _ hz))
          simp [List.foldr_cons, this, hx]

/-! ### Claim C6 -/

/-- C6 counterexample: with the claim's literal column layout (columns 24-30
holding the first seven of its listed values, the placeholder being `"x"`),
the normalizer does not produce the claimed record: position 26 (slice index
2) is the `time` source, so the output time is the placeholder and the type,
booker and details come one position early. -/
theorem c6_normalizer_roundtrip_counterexample :
    normalize_batch
      [List.replicate 23 "" ++
        ["01/05/2024 - South", "x", "x", "Pitch 1", "14:00 to 15:00",
          "Match", "J.Smith"]] =
      Except.ok [{ date := "01/05/2024", location := some "South",
                   sublocation := "Pitch 1", time := "x",
                   type := "14:00 to 15:00", booker := "Match",
                   details := "J.Smith" }] ∧
    normalize_batch
      [List.replicate 23 "" ++
        ["01/05/2024 - South", "x", "x", "Pitch 1", "14:00 to 15:00",
          "Match", "J.Smith"]] ≠
      Except.ok [{ date := "01/05/2024", location := some "South",
                   sublocation := "Pitch 1", time := "14:00 to 15:00",
                   type := "Match", booker := "J.Smith",
                   details := "Final" }] := by
  exact ⟨by decide, by decide⟩

/-- C6 amended: the synthetic 30-column row's columns 24-30 are
`["01/05/2024 - South", x, "14:00 to 15:00", "Pitch 1", "Match", "J.Smith",
"Final"]` — one filler column (25), with the time at column 26 preceding the
sublocation at column 27; on that row the normalizer yields exactly the
claimed record. -/
theorem c6_normalizer_roundtrip :
    normalize_batch
      [List.replicate 23 "" ++
        ["01/05/2024 - South", "x", "14:00 to 15:00", "Pitch 1", "Match",
          "J.Smith", "Final"]] =
      Except.ok [{ date := "01/05/2024", location := some "South",
                   sublocation := "Pitch 1", time := "14:00 to 15:00",
                   type := "Match", booker := "J.Smith",
                   details := "Final" }] := by
  decide

/-! ### Claim C7 -/

/-- C7 counterexample: in a batch where another row does contain `" - "`,
a separator-less row does not make normalization fail — the batch
normalizes successfully and the malformed row silently receives a null
location. -/
theorem c7_malformed_row_counterexample :
    normalize_batch
      [ List.replicate 23 "" ++
          ["01/05/2024 - South", "x", "14:00 to 15:00", "Pitch 1", "Match",
            "J.Smith", "Final"],
        List.replicate 23 "" ++
          ["02/05/2024 South", "x", "09:00 to 10:00", "Pitch 2", "Train",
            "A.Jones", "note"] ] =
      Except.ok
        [ { date := "01/05/2024", location := some "South",
            sublocation := "Pitch 1", time := "14:00 to 15:00",
            type := "Match", booker := "J.Smith", details := "Final" },
          { date := "02/05/2024 South", location := none,
            sublocation := "Pitch 2", time := "09:00 to 10:00",
            type := "Train", booker := "A.Jones", details := "note" } ] := by
  decide

/-- C7 amended: a row whose combined date-location field lacks the `" - "`
separator (its split has a single part) causes a batch-level column-count
error — not a typed per-row `MalformedRowError` — only when every row of the
batch lacks the separator, since the expanded split then has one column and
naming two columns raises; otherwise, when the batch's widest split is
exactly two parts, the batch normalizes and the separator-less row is kept
but silently carries a null location. -/
theorem c7_malformed_row_batch_behavior :
    (∀ df : List (List String), df ≠ [] →
      (∀ r ∈ df, (rowParts r).length = 1) →
      normalize_batch df = Except.error (NormError.columnMismatch 1)) ∧
    (∀ (df : List (List String)) (out : List NormRow) (r : List String),
      normalize_batch df = Except.ok out → r ∈ df →
      (rowParts r).length = 1 →
      normOne r ∈ out ∧ (normOne r).location = none) := by
  constructor
  · intro df hne hall
    have hmax : maxParts df = 1 := by
      unfold maxParts
      refine foldr_max_of_all_one ?_ ?_
      · simp [hne]
      · intro x hx
        obtain ⟨r, hr, rfl⟩ := List.mem_map.mp hx
        exact hall r hr
    unfold normalize_batch
    rw [hmax]
    simp
  · intro df out r hok hr hlen
    have hmax : maxParts df = 2 := by
      by_contra hmax
      unfold normalize_batch at hok
      rw [if_neg hmax] at hok
      cases hok
    have hout : out = df.map normOne := by
      unfold normalize_batch at hok
      rw [if_pos hmax] at hok
      exact (Except.ok.inj hok).symm
    constructor
    · rw [hout]
      exact List.mem_map_of_mem _ hr
    · show (rowParts r)[1]? = none
      exact List.getElem?_eq_none (by rw [hlen])

/-- Witness for the amended C7: an all-malformed singleton batch errors with
column count 1; a mixed batch keeps the malformed row with a null
location. -/
theorem c7_malformed_row_batch_behavior_witness :
    normalize_batch
      [List.replicate 23 "" ++
        ["02/05/2024 South", "x", "09:00 to 10:00", "Pitch 2", "Train",
          "A.Jones", "note"]] =
      Except.error (NormError.columnMismatch 1) ∧
    (normOne (List.replicate 23 "" ++
        ["02/05/2024 South", "x", "09:00 to 10:00", "Pitch 2", "Train",
          "A.Jones", "note"]) ∈
      [ normOne (List.replicate 23 "" ++
          ["01/05/2024 - South", "x", "14:00 to 15:00", "Pitch 1", "Match",
            "J.Smith", "Final"]),
        normOne (List.replicate 23 "" ++
          ["02/05/2024 South", "x", "09:00 to 10:00", "Pitch 2", "Train",
            "A.Jones", "note"]) ] ∧
      (normOne (List.replicate 23 "" ++
          ["02/05/2024 South", "x", "09:00 to 10:00", "Pitch 2", "Train",
            "A.Jones", "note"])).location = none) := by
  constructor
  · exact c7_malformed_row_batch_behavior.1 _ (by decide)
      (by intro r hr; fin_cases hr; decide)
  · exact c7_malformed_row_batch_behavior.2
      [ List.replicate 23 "" ++
          ["01/05/2024 - South", "x", "14:00 to 15:00", "Pitch 1", "Match",
            "J.Smith", "Final"],
        List.replicate 23 "" ++
          ["02/05/2024 South", "x", "09:00 to 10:00", "Pitch 2", "Train",
            "A.Jones", "note"] ]
      [ normOne (List.replicate 23 "" ++
          ["01/05/2024 - South", "x", "14:00 to 15:00", "Pitch 1", "Match",
            "J.Smith", "Final"]),
        normOne (List.replicate 23 "" ++
          ["02/05/2024 South", "x", "09:00 to 10:00", "Pitch 2", "Train",
            "A.Jones", "note"]) ]
      (List.replicate 23 "" ++
        ["02/05/2024 South", "x", "09:00 to 10:00", "Pitch 2", "Train",
          "A.Jones", "note"])
      (by decide) (by decide) (by decide)

/-! ### Claim C10 -/

/-- C10: a single row whose combined field splits into three or more parts
(the separator `" - "` occurring at least twice) widens the expanded split
beyond two columns, so naming the two columns fails and the whole batch —
every row of it — goes unnormalized. -/
theorem c10_double_separator_fails_batch (df : List (List String))
    (r : List String) (hr : r ∈ df) (h3 : 3 ≤ (rowParts r).length) :
    normalize_batch df =
      Except.error (NormError.columnMismatch (maxParts df)) ∧
    3 ≤ maxParts df := by
  have hle : (rowParts r).length ≤ maxParts df :=
    le_foldr_max (List.mem_map_of_mem _ hr)
  have h3' : 3 ≤ maxParts df := le_trans h3 hle
  refine ⟨?_, h3'⟩
  unfold normalize_batch
  rw [if_neg (by omega)]

/-- Witness for C10: a batch with one well-formed row and one row whose
location itself contains `" - "`; the whole batch errors. -/
theorem c10_double_separator_fails_batch_witness :
    (3 ≤ (rowParts (List.replicate 23 "" ++
        ["01/05/2024 - South - Annex", "x", "14:00 to 15:00", "Pitch 1",
          "Match", "J.Smith", "Final"])).length) ∧
    normalize_batch
      [ List.replicate 23 "" ++
          ["01/05/2024 - South", "x", "14:00 to 15:00", "Pitch 1", "Match",
            "J.Smith", "Final"],
        List.replicate 23 "" ++
          ["01/05/2024 - South - Annex", "x", "14:00 to 15:00", "Pitch 1",
            "Match", "J.Smith", "Final"] ] =
      Except.error (NormError.columnMismatch (maxParts
        [ List.replicate 23 "" ++
            ["01/05/2024 - South", "x", "14:00 to 15:00", "Pitch 1", "Match",
              "J.Smith", "Final"],
          List.replicate 23 "" ++
            ["01/05/2024 - South - Annex", "x", "14:00 to 15:00", "Pitch 1",
              "Match", "J.Smith", "Final"] ])) := by
  refine ⟨by decide, ?_⟩
  exact (c10_double_separator_fails_batch
    [ List.replicate 23 "" ++
        ["01/05/2024 - South", "x", "14:00 to 15:00", "Pitch 1", "Match",
          "J.Smith", "Final"],
      List.replicate 23 "" ++
        ["01/05/2024 - South - Annex", "x", "14:00 to 15:00", "Pitch 1",
          "Match", "J.Smith", "Final"] ]
    (List.replicate 23 "" ++
      ["01/05/2024 - South - Annex", "x", "14:00 to 15:00", "Pitch 1",
        "Match", "J.Smith", "Final"])
    (by decide) (by decide)).1

/-! ### Null-carrying rows and the aggregators' treatment of missing fields

pandas cells can be NaN (e.g. an empty `details` cell in the CSV).  `NBooking`
carries the four grouping fields of the Daily Aggregator as options; `date`,
`location` and `sublocation` come from the split and slice and are present.
pandas `groupby` defaults to `dropna=True`: a row whose group key contains
NaN is excluded from the grouping.  `aggregate_bookings` groups by (time,
type, booker, details) with no preceding null-coalescing step, so such rows
vanish from its output; `agggrass` runs `fillna` on those fields first
(src/unnamed/part_000:169), so they survive as empty strings. -/
structure NBooking where
  date : String
  location : String
  sublocation : String
  time : Option String
  type : Option String
  booker : Option String
  details : Option String
deriving DecidableEq

/-- The row's Daily-Aggregator group key is NaN-free. -/
def nHasKeys (r : NBooking) : Bool :=
  r.time.isSome && r.type.isSome && r.booker.isSome && r.details.isSome

/-- The group key of a NaN-free row (the `getD` defaults are unreachable
under `nHasKeys`). -/
def nKeyOf (r : NBooking) : GKey :=
  { time := r.time.getD "", type := r.type.getD "",
    booker := r.booker.getD "", details := r.details.getD "" }

/-- `aggregate_bookings` over null-carrying rows: identical to
`aggregate_bookings` except that, per pandas `groupby` semantics
(`dropna=True`, the default, and no `fillna` before it in
src/app.py:160-175), the rows whose (time, type, booker, details) key
contains a missing value take no part in the grouping. -/
def aggregate_bookingsN (df : List NBooking) : List Booking :=
  (sortStrings (df.map (·.date)).dedup).flatMap (fun d =>
    let df_date := df.filter (fun r => decide (r.date = d))
    (sortStrings (df_date.map (·.location)).dedup).flatMap (fun loc =>
      let sub_df := df_date.filter (fun r => decide (r.location = loc))
      let keyed := sub_df.filter nHasKeys
      (List.insertionSort gkeyLE (keyed.map nKeyOf).dedup).map (fun k =>
        { date := d, location := loc,
          sublocation := collapseSub loc
            ((keyed.filter (fun r => decide (nKeyOf r = k))).map
              (·.sublocation)),
          time := k.time, type := k.type, booker := k.booker,
          details := k.details })))

/-- `df.fillna({'date':'', 'time':'', 'type':'', 'booker':'', 'details':''})`
(src/unnamed/part_000:169): missing text fields become empty strings; `date`
is already present in this row model, and `location`/`sublocation` are not
filled by the source either. -/
def fillN (r : NBooking) : Booking :=
  { date := r.date, location := r.location, sublocation := r.sublocation,
    time := r.time.getD "", type := r.type.getD "",
    booker := r.booker.getD "", details := r.details.getD "" }

/-- `agggrass` over null-carrying rows: the source's `fillna` precedes the
grouping, after which the condensation is `agggrass` itself. -/
def agggrassN (df : List NBooking) : List Booking :=
  agggrass (df.map fillN)

/-! ### Claim C9 -/

/-- C9: every output row of the Daily Aggregator stems from an input row
whose four grouping fields are all present — so an input row with a missing
time, type, booker or details is silently omitted.  Concretely, a single
booking with missing `details` produces an empty Daily-Aggregator output,
while the Grass Condenser (which fills missing fields with empty strings
before grouping) keeps it. -/
theorem c9_missing_grouping_fields_omitted (df : List NBooking) (out : Booking)
    (hout : out ∈ aggregate_bookingsN df) :
    (∃ r ∈ df, r.date = out.date ∧ r.location = out.location ∧
      r.time = some out.time ∧ r.type = some out.type ∧
      r.booker = some out.booker ∧ r.details = some out.details) ∧
    aggregate_bookingsN
      [{ date := "01/05/2024", location := "South", sublocation := "S 1",
         time := some "14:00 to 15:00", type := some "Match",
         booker := some "J.Smith", details := none }] = [] ∧
    agggrassN
      [{ date := "01/05/2024", location := "South", sublocation := "S 1",
         time := some "14:00 to 15:00", type := some "Match",
         booker := some "J.Smith", details := none }] =
      [{ date := "01/05/2024", location := "South", sublocation := "S 1",
         time := "14:00 to 15:00", type := "Match", booker := "J.Smith",
         details := "" }] := by
  refine ⟨?_, by decide, by decide⟩
  simp only [aggregate_bookingsN, List.mem_flatMap, List.mem_map] at hout
  obtain ⟨d, _, loc, _, k, hk, rfl⟩ := hout
  have hk' : k ∈ (((df.filter (fun r => decide (r.date = d))).filter
      (fun r => decide (r.location = loc))).filter nHasKeys).map nKeyOf :=
    List.mem_dedup.mp ((List.perm_insertionSort gkeyLE _).mem_iff.mp hk)
  obtain ⟨r, hrk, hkey⟩ := List.mem_map.mp hk'
  subst hkey
  have h1 := List.mem_filter.mp hrk
  have h2 := List.mem_filter.mp h1.1
  have h3 := List.mem_filter.mp h2.1
  obtain ⟨⟨⟨ht, hty⟩, hb⟩, hdt⟩ : ((r.time.isSome = true ∧
      r.type.isSome = true) ∧ r.booker.isSome = true) ∧
      r.details.isSome = true := by
    simpa [nHasKeys, Bool.and_eq_true] using h1.2
  obtain ⟨vt, hvt⟩ := Option.isSome_iff_exists.mp ht
  obtain ⟨vty, hvty⟩ := Option.isSome_iff_exists.mp hty
  obtain ⟨vb, hvb⟩ := Option.isSome_iff_exists.mp hb
  obtain ⟨vd, hvd⟩ := Option.isSome_iff_exists.mp hdt
  refine ⟨r, h3.1, ?_, ?_, ?_, ?_, ?_, ?_⟩ <;>
    simp [nKeyOf, hvt, hvty, hvb, hvd, of_decide_eq_true h3.2,
      of_decide_eq_true h2.2]

/-- Witness for C9: a complete one-row input whose booking does appear in
the output, instantiating the provenance statement. -/
theorem c9_missing_grouping_fields_omitted_witness :
    (({ date := "01/05/2024", location := "South", sublocation := "S 1",
        time := "10:00 to 11:00", type := "T", booker := "B",
        details := "D" } : Booking) ∈
      aggregate_bookingsN
        [{ date := "01/05/2024", location := "South", sublocation := "S 1",
           time := some "10:00 to 11:00", type := some "T",
           booker := some "B", details := some "D" }]) ∧
    (∃ r ∈ [({ date := "01/05/2024", location := "South",
               sublocation := "S 1", time := some "10:00 to 11:00",
               type := some "T", booker := some "B",
               details := some "D" } : NBooking)],
      r.date = "01/05/2024" ∧ r.location = "South" ∧
      r.time = some "10:00 to 11:00" ∧ r.type = some "T" ∧
      r.booker = some "B" ∧ r.details = some "D") := by
  refine ⟨by decide, ?_⟩
  exact (c9_missing_grouping_fields_omitted
    [{ date := "01/05/2024", location := "South", sublocation := "S 1",
       time := some "10:00 to 11:00", type := some "T", booker := some "B",
       details := some "D" }]
    { date := "01/05/2024", location := "South", sublocation := "S 1",
      time := "10:00 to 11:00", type := "T", booker := "B", details := "D" }
    (by decide)).1
